import Mathlib

/-!
Shallow embedding of the report-plotting scripts of the `the-one` reports
repository, and verification of the specification's claims about them.

The three source programs are
  * `reports/bubblerap2/plot_popularity.py` — loads a cumulative popularity
    matrix (CSV), selects one node's row, converts the cumulative series into
    per-window deltas and draws a bar chart;
  * `reports/prophetcomparison/plot.py` — glob-discovers MessageStatsReport
    files, parses `key: value` metric lines, reshapes them per protocol and
    scenario and draws line charts;
  * `reports/prophetcomparison2/plot.py` — same, over a hard-coded file list
    with a Haggle/Reality naming scheme.

Python strings are modelled as `List Char`, Python floats as `Option ℚ`
(`none` standing for NaN, i.e. an unparseable or missing value; finite float
literals are carried exactly as rationals), Python dicts as insertion-ordered
association lists with first-match lookup and in-place update.
-/

deriving instance DecidableEq for Except

namespace TheOne

/-! ## Text utilities (Python `str` operations over `List Char`) -/

def isWS (c : Char) : Bool := c.isWhitespace

def isDigitB (c : Char) : Bool := c.isDigit

/-- Python `str.strip()`: remove leading and trailing whitespace. -/
def strip (l : List Char) : List Char :=
  ((l.dropWhile isWS).reverse.dropWhile isWS).reverse

/-- `str.split(sep)` for a one-character separator, Python semantics:
`"".split(',') = ['']`, empty fields preserved. -/
def splitOnChar (sep : Char) : List Char → List (List Char)
  | [] => [[]]
  | c :: t =>
    let r := splitOnChar sep t
    if c = sep then [] :: r
    else
      match r with
      | [] => [[c]]
      | h :: rt => (c :: h) :: rt

/-- `os.path.basename`: the part of the path after the last slash. -/
def basename (p : List Char) : List Char :=
  (p.reverse.takeWhile (fun c => c != '/')).reverse

/-- Convenience: the character list of a string literal. -/
def strL (s : String) : List Char := s.data

def digitVal (c : Char) : Nat := c.toNat - 48

def natOfDigits (ds : List Char) : Nat :=
  ds.foldl (fun a c => 10 * a + digitVal c) 0

/-- Does `p` occur as a starting segment of `l`? -/
def startsWithL : List Char → List Char → Bool
  | [], _ => true
  | _ :: _, [] => false
  | p :: ps, c :: cs => (p == c) && startsWithL ps cs

/-- Case-insensitive `startsWithL`; the pattern is given in lower case. -/
def startsWithCI : List Char → List Char → Bool
  | [], _ => true
  | _ :: _, [] => false
  | p :: ps, c :: cs => (p == c.toLower) && startsWithCI ps cs

/-- Python `x in s` substring test. -/
def isInfixL (needle : List Char) : List Char → Bool
  | [] => needle.isEmpty
  | c :: t => startsWithL needle (c :: t) || isInfixL needle t

def toLowerL (l : List Char) : List Char := l.map Char.toLower

/-! ## Python numeric literal parsing

`pyInt s` models `int(s)`: surrounding whitespace, an optional sign and a
nonempty digit run.  `pyFloat s` models `float(s)` on finite decimal
literals: optional sign, digits with an optional fractional part and an
optional exponent; `none` stands for a `ValueError` (a non-numeric text) or
a non-finite value (`nan`/`inf` inputs, which the scripts also store as NaN).
-/

def pyIntMag (s : List Char) : Option ℤ :=
  if s ≠ [] ∧ s.all isDigitB then some (natOfDigits s) else none

def pyInt (s0 : List Char) : Option ℤ :=
  match strip s0 with
  | '+' :: t => pyIntMag t
  | '-' :: t => (pyIntMag t).map Neg.neg
  | t => pyIntMag t

/-- Digits of an exponent suffix. -/
def expDigitsN (d : List Char) : Option ℕ :=
  if d ≠ [] ∧ d.all isDigitB then some (natOfDigits d) else none

/-- The optional exponent suffix of a float literal, as a signed power of ten. -/
def pyExpZ : List Char → Option ℤ
  | [] => some 0
  | c :: r =>
    if c = 'e' ∨ c = 'E' then
      match r with
      | '+' :: d => (expDigitsN d).map (fun n => (n : ℤ))
      | '-' :: d => (expDigitsN d).map (fun n => -(n : ℤ))
      | d => (expDigitsN d).map (fun n => (n : ℤ))
    else none

/-- The exact rational value `sign · ip.fp · 10 ^ e` of a decimal literal with
integer part `ip`, `k` fractional digits of joint value `fp` and exponent `e`.
Built with the smart constructor `mkRat` on the exact fraction (rather than
with the `@[irreducible]` field operations of `ℚ`) so that concrete parses
reduce inside the kernel. -/
def ratOfDecimal (sign : ℤ) (ip fp k : ℕ) : ℤ → ℚ
  | .ofNat n => mkRat (sign * ((ip : ℤ) * 10 ^ k + fp) * 10 ^ n) (10 ^ k)
  | .negSucc n => mkRat (sign * ((ip : ℤ) * 10 ^ k + fp)) (10 ^ k * 10 ^ (n + 1))

def pyFloatMag (sign : ℤ) (s : List Char) : Option ℚ :=
  let ip := s.takeWhile isDigitB
  match s.drop ip.length with
  | '.' :: r2 =>
    let fp := r2.takeWhile isDigitB
    if ip.length + fp.length = 0 then none
    else
      (pyExpZ (r2.drop fp.length)).map
        (ratOfDecimal sign (natOfDigits ip) (natOfDigits fp) fp.length)
  | r1 =>
    if ip.isEmpty then none
    else (pyExpZ r1).map (ratOfDecimal sign (natOfDigits ip) 0 0)

def pyFloat (s0 : List Char) : Option ℚ :=
  match strip s0 with
  | '+' :: t => pyFloatMag 1 t
  | '-' :: t => pyFloatMag (-1) t
  | t => pyFloatMag 1 t

/-- Exact subtraction of rationals, written on the fraction representation
(`Rat.sub` itself is `@[irreducible]`, which would block kernel evaluation of
concrete runs); `ratSub_eq` identifies it with `Sub.sub` on `ℚ`. -/
def ratSub (a b : ℚ) : ℚ := mkRat (a.num * b.den - b.num * a.den) (a.den * b.den)

/-- Truncation toward zero: numpy's `astype(int)` cast of a float. -/
def itrunc (q : ℚ) : ℤ :=
  if q.num < 0 then -((q.num.natAbs / q.den : ℕ) : ℤ)
  else ((q.num.natAbs / q.den : ℕ) : ℤ)

/-! ## Python dicts as insertion-ordered association lists -/

def pyGet {α β : Type} [DecidableEq α] (k : α) : List (α × β) → Option β
  | [] => none
  | (k0, v0) :: t => if k0 = k then some v0 else pyGet k t

def pySet {α β : Type} [DecidableEq α] (k : α) (v : β) : List (α × β) → List (α × β)
  | [] => [(k, v)]
  | (k0, v0) :: t => if k0 = k then (k0, v) :: t else (k0, v0) :: pySet k v t

def pyKeys {α β : Type} (d : List (α × β)) : List α := d.map Prod.fst

/-! ## `reports/bubblerap2/plot_popularity.py`

The script loads the CSV with `pd.read_csv(filename, index_col=0)`.  In the
report format the header row names only the `Pop@<t>` value columns while each
data row carries a leading node-id field, so the frame has `columns` = the
header fields and one `(node id, values)` pair per data row.  Cell values are
re-parsed with `pd.to_numeric(..., errors='coerce')`, i.e. `Option ℚ` with
`none` for a coerced NaN.
-/

structure Frame where
  columns : List (List Char)
  rows : List (List Char × List (List Char))
deriving DecidableEq

def readCsv (lines : List (List Char)) : Option Frame :=
  match lines with
  | [] => none
  | h :: rest =>
    some { columns := splitOnChar ',' h
           rows := rest.map (fun r =>
             match splitOnChar ',' r with
             | [] => ([], [])
             | id0 :: vals => (id0, vals)) }

/-- `osub` is subtraction of pandas float cells: NaN-propagating. -/
def osub : Option ℚ → Option ℚ → Option ℚ
  | some a, some b => some (ratSub a b)
  | _, _ => none

/-- Lines 45-48 of `plot_popularity.py`:
`window_popularity = cumulative_popularity.diff()`;
`window_popularity.iloc[0] = cumulative_popularity.iloc[0]`;
`window_popularity = window_popularity.fillna(0).astype(int)`. -/
def windowPopularity (c : List (Option ℚ)) : List ℤ :=
  match c with
  | [] => []
  | c0 :: t => (c0 :: List.zipWith osub t (c0 :: t)).map (fun o => itrunc (o.getD 0))

/-- The same pipeline without the final `astype(int)` cast: the exact
per-window differences after `fillna(0)`. -/
def exactDeltas (c : List (Option ℚ)) : List ℚ :=
  match c with
  | [] => []
  | c0 :: t => (c0 :: List.zipWith osub t (c0 :: t)).map (fun o => o.getD 0)

/-- `int(str(col).split('@')[1])`: the piece after the first `@`. -/
def parseTimePoint (col : List Char) : Option ℤ :=
  match splitOnChar '@' col with
  | _ :: p1 :: _ => pyInt p1
  | _ => none

def parseCols : List (List Char) → Option (List ℤ)
  | [] => some []
  | c :: t =>
    match parseTimePoint c, parseCols t with
    | some v, some vs => some (v :: vs)
    | _, _ => none

inductive PopErr
  | loadFailure
  | nodeNotFound (available : List (List Char))
  | headerParseFailure
  | allValuesNull
deriving DecidableEq

structure BarChart where
  bars : List ℤ
  timePoints : List ℤ
deriving DecidableEq

/-- `plot_node_popularity(filename, node_id_to_plot)`, with the filesystem
passed in as `fs` (`none` = missing or unreadable file) and the rendering
calls abstracted into the returned bar data. -/
def plot_node_popularity (fs : List Char → Option (List (List Char)))
    (filename : List Char) (nodeId : List Char) : Except PopErr BarChart :=
  match fs filename with
  | none => .error .loadFailure
  | some lines =>
    match readCsv lines with
    | none => .error .loadFailure
    | some df =>
      match df.rows.find? (fun r => r.1 = nodeId) with
      | none => .error (.nodeNotFound (df.rows.map Prod.fst))
      | some row =>
        let cumulative := row.2.map pyFloat
        match parseCols df.columns with
        | none => .error .headerParseFailure
        | some timePoints =>
          if cumulative.all Option.isNone then .error .allValuesNull
          else .ok { bars := windowPopularity cumulative, timePoints := timePoints }

/-- The Reshaper delta rule in the words of the specification, for a series
of integer popularity counters: `window[0] = cumulative[0]`,
`window[i] = cumulative[i] − cumulative[i−1]` for `i > 0`, any window whose
value is unavailable because of a missing sample treated as zero. -/
def specDeltaTail (prev : Option ℤ) : List (Option ℤ) → List ℤ
  | [] => []
  | x :: t =>
    (match prev, x with
     | some b, some a => a - b
     | _, _ => 0) :: specDeltaTail x t

def specWindowDeltas : List (Option ℤ) → List ℤ
  | [] => []
  | c0 :: t => c0.getD 0 :: specDeltaTail c0 t

/-- A concrete matrix report: the file of the specification's worked example,
header `Pop@3600,Pop@7200` and the single row `A1,10,15`. -/
def popMatrixFs : List Char → Option (List (List Char)) := fun p =>
  if p = strL "pop.csv" then some [strL "Pop@3600,Pop@7200", strL "A1,10,15"] else none

/-- A matrix report whose cumulative values are fractional. -/
def fracMatrixFs : List Char → Option (List (List Char)) := fun p =>
  if p = strL "pop.csv" then some [strL "Pop@3600,Pop@7200", strL "A1,10.5,12.3"] else none

/-- The canonical embedding of an integer series value into the float model. -/
def qcast (n : ℤ) : ℚ := (n : ℚ)

/-! ## `reports/prophetcomparison/plot.py`

The glob script.  The filesystem is a function `fs : path → Option lines`
(`none` = the `open`/`readlines` call fails) and the glob result is a list of
paths.  The nested Python dict
`data : protocol → scenario → metric → float-or-NaN` is the nested
association list `V1Data`.
-/

def metricsToPlot : List (List Char) :=
  [strL "delivery_prob", strL "overhead_ratio", strL "latency_avg",
   strL "latency_med", strL "buffertime_avg", strL "buffertime_med"]

/-- `(\d+)_` at the head of `r`: a nonempty maximal digit run directly
followed by an underscore. -/
def digitsThenUnderscore (r : List Char) : Option ℕ :=
  let ds := r.takeWhile isDigitB
  match r.drop ds.length with
  | '_' :: _ => if ds.isEmpty then none else some (natOfDigits ds)
  | _ => none

def matchScenarioSuffix (r : List Char) : Option ℕ :=
  if startsWithL (strL "_scenario") r then digitsThenUnderscore (r.drop 9) else none

/-- `re.match(r'(prophetrandomtuned|prophettuned)_scenario(\d+)_', basename)`
together with the display name chosen for the matched group. -/
def matchFilenameV1 (b : List Char) : Option (List Char × ℕ) :=
  if startsWithL (strL "prophetrandomtuned") b then
    (matchScenarioSuffix (b.drop 18)).map (fun n => (strL "Prophet Random", n))
  else if startsWithL (strL "prophettuned") b then
    (matchScenarioSuffix (b.drop 12)).map (fun n => (strL "Prophet", n))
  else none

/-- One line of the metric loop: strip, require a `:`, split on the first `:`
by the regex `([^:]+):\s*(.*)` (which needs a nonempty key part), strip key
and value, keep only whitelisted keys, parse the value with `float` (NaN on
failure). -/
def processLineV1 (line : List Char) : Option (List Char × Option ℚ) :=
  let l := strip line
  if ':' ∈ l then
    let pre := l.takeWhile (fun c => c != ':')
    if pre.isEmpty then none
    else
      let key := strip pre
      let valueStr := strip ((l.drop (pre.length + 1)).dropWhile isWS)
      if key ∈ metricsToPlot then some (key, pyFloat valueStr) else none
  else none

abbrev Metrics := List (List Char × Option ℚ)

abbrev V1Data := List (List Char × List (ℕ × Metrics))

instance decEqMetrics : DecidableEq Metrics := inferInstance

instance decEqScenarioDict : DecidableEq (List (ℕ × Metrics)) := inferInstance

instance decEqV1DataEntry : DecidableEq (List Char × List (ℕ × Metrics)) :=
  instDecidableEqProd

instance decEqV1Data : DecidableEq V1Data := instDecidableEqList

/-- Lines 44-47: create the (protocol, scenario) dict slots if absent.  This
happens before the file is opened, so a file whose name parses still leaves
an empty slot behind even when reading it fails. -/
def v1InitDicts (p : List Char) (sc : ℕ) (d : V1Data) : V1Data :=
  let d1 := if (pyGet p d).isSome then d else pySet p [] d
  let inner := (pyGet p d1).getD []
  if (pyGet sc inner).isSome then d1 else pySet p (pySet sc [] inner) d1

/-- `data[protocol_name][scenario_num][key] = value`. -/
def v1Store (p : List Char) (sc : ℕ) (k : List Char) (v : Option ℚ) (d : V1Data) : V1Data :=
  let inner := (pyGet p d).getD []
  let m := (pyGet sc inner).getD []
  pySet p (pySet sc (pySet k v m) inner) d

def v1ProcessLine (p : List Char) (sc : ℕ) (d : V1Data) (line : List Char) : V1Data :=
  match processLineV1 line with
  | some (k, v) => v1Store p sc k v d
  | none => d

/-- Processing of one discovered file. -/
def v1Step (fs : List Char → Option (List (List Char))) (d : V1Data) (path : List Char) :
    V1Data :=
  match matchFilenameV1 (basename path) with
  | none => d
  | some (p, sc) =>
    let d1 := v1InitDicts p sc d
    match fs path with
    | none => d1
    | some lines => lines.foldl (v1ProcessLine p sc) d1

/-- The File Locator of the glob script: `report_files.sort()` on the glob
result. -/
def v1Files (globResult : List (List Char)) : List (List Char) :=
  List.insertionSort (· ≤ ·) globResult

def v1Data (fs : List Char → Option (List (List Char))) (globResult : List (List Char)) :
    V1Data :=
  (v1Files globResult).foldl (v1Step fs) []

/-- `data.get(proto, {}).get(sc, {}).get(metric_key, np.nan)`. -/
def lookup3 (d : V1Data) (p : List Char) (sc : ℕ) (k : List Char) : Option ℚ :=
  (pyGet k ((pyGet sc ((pyGet p d).getD [])).getD [])).getD none

structure V1Output where
  protocols : List (List Char)
  scenarios : List ℕ
  plotData : List (List Char × List (List Char × List (Option ℚ)))
  missingWarnings : List (List Char × ℕ × List Char)
deriving DecidableEq

inductive V1Err
  | noFiles
  | noData
  | noScenarios
deriving DecidableEq

/-- `if warning_msg not in missing_data_warnings: append`. -/
def v1AddWarning (w : List Char × ℕ × List Char) (ws : List (List Char × ℕ × List Char)) :
    List (List Char × ℕ × List Char) :=
  if w ∈ ws then ws else ws ++ [w]

def v1Warnings (d : V1Data) (protocols : List (List Char)) (scenarios : List ℕ) :
    List (List Char × ℕ × List Char) :=
  protocols.foldl (fun ws p =>
    metricsToPlot.foldl (fun ws k =>
      scenarios.foldl (fun ws sc =>
        if (lookup3 d p sc k).isNone then v1AddWarning (p, sc, k) ws else ws) ws) ws) []

def v1PlotData (d : V1Data) (protocols : List (List Char)) (scenarios : List ℕ) :
    List (List Char × List (List Char × List (Option ℚ))) :=
  protocols.map (fun p =>
    (p, metricsToPlot.map (fun k => (k, scenarios.map (fun sc => lookup3 d p sc k)))))

/-- The whole glob script up to the plotting calls: locate and sort files,
parse them, stop with a diagnostic on an empty file set or an empty data
dict, reshape for plotting. -/
def mainV1 (fs : List Char → Option (List (List Char))) (globResult : List (List Char)) :
    Except V1Err V1Output :=
  if globResult.isEmpty then .error .noFiles
  else
    let d := v1Data fs globResult
    if d.isEmpty then .error .noData
    else
      let protocols := List.insertionSort (· ≤ ·) (pyKeys d)
      match protocols with
      | [] => .error .noScenarios
      | p0 :: _ =>
        let sc0 := pyKeys ((pyGet p0 d).getD [])
        if sc0.isEmpty then .error .noScenarios
        else
          let scenarios := List.insertionSort (· ≤ ·) sc0
          .ok ⟨protocols, scenarios, v1PlotData d protocols scenarios,
               v1Warnings d protocols scenarios⟩

/-! ## `reports/prophetcomparison2/plot.py`

The hard-coded-list script.  `METRICS_TO_PLOT` has the same six keys as the
glob script's whitelist, so `metricsToPlot` is shared.
-/

structure ParsedFile where
  prophetType : List Char
  scenario : ℕ
  metrics : Metrics
deriving DecidableEq

/-- One line of `parse_message_stats_file`: strip, require a `:`, then
`line.split(":", 1)`, strip both parts, keep whitelisted keys, `float` the
value (NaN when that raises). -/
def processLineV2 (line : List Char) : Option (List Char × Option ℚ) :=
  let l := strip line
  if ':' ∈ l then
    let key := strip (l.takeWhile (fun c => c != ':'))
    let valueStr := strip (l.drop ((l.takeWhile (fun c => c != ':')).length + 1))
    if key ∈ metricsToPlot then some (key, pyFloat valueStr) else none
  else none

def v2MetricsStep (m : Metrics) (line : List Char) : Metrics :=
  match processLineV2 line with
  | some (k, v) => pySet k v m
  | none => m

def v2Metrics (lines : List (List Char)) : Metrics := lines.foldl v2MetricsStep []

/-- One attempt of the scenario regex at the current position: the
alternation `(?:RandomProphet|Prophet)` (case-insensitively; the two
branches cannot both start at one position) followed by `(\d+)_`. -/
def scanTryAt (l : List Char) : Option ℕ :=
  if startsWithCI (strL "randomprophet") l then digitsThenUnderscore (l.drop 13)
  else if startsWithCI (strL "prophet") l then digitsThenUnderscore (l.drop 7)
  else none

/-- `re.search(r"(?:RandomProphet|Prophet)(\d+)_", filename, re.IGNORECASE)`:
try every start position left to right. -/
def scanScenario : List Char → Option ℕ
  | [] => none
  | c :: t =>
    match scanTryAt (c :: t) with
    | some n => some n
    | none => scanScenario t

def parseBaseType (lower : List Char) : Option (List Char) :=
  if isInfixL (strL "haggle") lower then some (strL "Haggle")
  else if isInfixL (strL "reality") lower then some (strL "Reality")
  else none

def parseVariant (lower : List Char) : Option (List Char) :=
  if isInfixL (strL "randomprophet") lower then some (strL "Random Prophet")
  else if isInfixL (strL "prophet") lower then some (strL "Prophet")
  else none

/-- Does the filename match the naming conventions of the list script? -/
def v2NameRecognized (b : List Char) : Bool :=
  (parseBaseType (toLowerL b)).isSome && (parseVariant (toLowerL b)).isSome
    && (scanScenario b).isSome

/-- `parse_message_stats_file`, given the file's lines; `none` covers every
`return None` branch (unrecognized name, no relevant metric found). -/
def parse_message_stats_file (filename : List Char) (lines : List (List Char)) :
    Option ParsedFile :=
  match parseBaseType (toLowerL filename) with
  | none => none
  | some bt =>
    match parseVariant (toLowerL filename) with
    | none => none
    | some var =>
      match scanScenario filename with
      | none => none
      | some sc =>
        let m := v2Metrics lines
        if m.isEmpty then none
        else some ⟨bt ++ ' ' :: var, sc, m⟩

def dataFiles : List (List Char) :=
  [strL "HaggleProphet100_MessageStatsReport.txt",
   strL "HaggleProphet300_MessageStatsReport.txt",
   strL "HaggleProphet500_MessageStatsReport.txt",
   strL "HaggleRandomProphet100_MessageStatsReport.txt",
   strL "HaggleRandomProphet300_MessageStatsReport.txt",
   strL "HaggleRandomProphet500_MessageStatsReport.txt",
   strL "RealityProphet100_MessageStatsReport.txt",
   strL "RealityProphet300_MessageStatsReport.txt",
   strL "RealityProphet500_MessageStatsReport.txt",
   strL "RealityRandomProphet100_MessageStatsReport.txt",
   strL "RealityRandomProphet300_MessageStatsReport.txt",
   strL "RealityRandomProphet500_MessageStatsReport.txt"]

/-- `os.path.join(script_dir, file_entry)` guarded by `os.path.isabs`. -/
def resolvePath (scriptDir entry : List Char) : List Char :=
  match entry with
  | '/' :: _ => entry
  | _ => scriptDir ++ '/' :: entry

/-- The File Locator of the list script (lines 109-117): resolve each entry
and keep those that exist on disk; a missing file is skipped (with a printed
warning) and processing continues. -/
def locateFilesV2 (scriptDir : List Char) (entries : List (List Char))
    (present : List Char → Bool) : List (List Char) :=
  (entries.map (resolvePath scriptDir)).filter present

/-- `all_parsed_data`: the records of the files that exist, open and parse.
`fs p = none` covers both a failed existence check and a failed read. -/
def v2Records (fs : List Char → Option (List (List Char))) (scriptDir : List Char)
    (entries : List (List Char)) : List ParsedFile :=
  entries.filterMap (fun e =>
    match fs (resolvePath scriptDir e) with
    | none => none
    | some lines => parse_message_stats_file (basename (resolvePath scriptDir e)) lines)

abbrev SeriesMap := List (List Char × List (List Char × List (ℕ × Option ℚ)))

instance decEqSeriesList : DecidableEq (List (ℕ × Option ℚ)) := inferInstance

instance decEqMetricSeries : DecidableEq (List (List Char × List (ℕ × Option ℚ))) :=
  inferInstance

instance decEqSeriesMapEntry : DecidableEq (List Char × List (List Char × List (ℕ × Option ℚ))) :=
  instDecidableEqProd

instance decEqSeriesMap : DecidableEq SeriesMap := instDecidableEqList

/-- `plotting_data[prophet_type][metric_key].append((scenario, value))` for
every metric of one record. -/
def v2BuildStep (d : SeriesMap) (r : ParsedFile) : SeriesMap :=
  r.metrics.foldl (fun d km =>
    let inner := (pyGet r.prophetType d).getD []
    let lst := (pyGet km.1 inner).getD []
    pySet r.prophetType (pySet km.1 (lst ++ [(r.scenario, km.2)]) inner) d) d

def v2Build (rs : List ParsedFile) : SeriesMap := rs.foldl v2BuildStep []

/-- The sort key of `plotting_data[pt][mk].sort(key=lambda x: x[0])`. -/
def scLE (a b : ℕ × Option ℚ) : Prop := a.1 ≤ b.1

instance : DecidableRel scLE := fun a b => Nat.decLe a.1 b.1

instance : IsTotal (ℕ × Option ℚ) scLE := ⟨fun a b => Nat.le_total a.1 b.1⟩

instance : IsTrans (ℕ × Option ℚ) scLE := ⟨fun _ _ _ h₁ h₂ => Nat.le_trans h₁ h₂⟩

def v2SortSeries (d : SeriesMap) : SeriesMap :=
  d.map (fun pe => (pe.1, pe.2.map (fun ms => (ms.1, List.insertionSort scLE ms.2))))

structure V2Output where
  prophetTypes : List (List Char)
  series : SeriesMap
deriving DecidableEq

/-- The list script up to the plotting loop, parameterized by the entry list
(the script runs it on `dataFiles`). -/
def mainV2Core (fs : List Char → Option (List (List Char))) (scriptDir : List Char)
    (entries : List (List Char)) : Except (List Char) V2Output :=
  let rs := v2Records fs scriptDir entries
  if rs.isEmpty then .error (strL "No data successfully parsed. Exiting.")
  else
    let d := v2SortSeries (v2Build rs)
    let types := List.insertionSort (· ≤ ·) (pyKeys d)
    if types.isEmpty then
      .error (strL "No valid prophet types found in the parsed data. Cannot plot.")
    else .ok ⟨types, d⟩

def mainV2 (fs : List Char → Option (List (List Char))) (scriptDir : List Char) :
    Except (List Char) V2Output :=
  mainV2Core fs scriptDir dataFiles

/-! ## Structural invariants of the nested dicts -/

/-- Outer and inner key lists of the glob script's data dict are duplicate
free. -/
def v1Inv (d : V1Data) : Prop :=
  (pyKeys d).Nodup ∧ ∀ p inner, pyGet p d = some inner → (pyKeys inner).Nodup

/-- A one-file filesystem for the glob script. -/
def wFsA : List Char → Option (List (List Char)) := fun p =>
  if p = strL "prophettuned_scenario1_MessageStatsReport.txt" then
    some [strL "delivery_prob: 0.5"]
  else none

/-- The glob script's output on `wFsA`'s single report. -/
def wV1Out : V1Output :=
  ⟨[strL "Prophet"], [1],
   [(strL "Prophet",
     [(strL "delivery_prob", [some (mkRat 1 2)]),
      (strL "overhead_ratio", [none]),
      (strL "latency_avg", [none]),
      (strL "latency_med", [none]),
      (strL "buffertime_avg", [none]),
      (strL "buffertime_med", [none])])],
   [(strL "Prophet", 1, strL "overhead_ratio"),
    (strL "Prophet", 1, strL "latency_avg"),
    (strL "Prophet", 1, strL "latency_med"),
    (strL "Prophet", 1, strL "buffertime_avg"),
    (strL "Prophet", 1, strL "buffertime_med")]⟩

/-- A one-file filesystem for the list script, rooted at `/d`. -/
def wFsB : List Char → Option (List (List Char)) := fun p =>
  if p = strL "/d/HaggleProphet100_MessageStatsReport.txt" then
    some [strL "delivery_prob: 0.5"]
  else none

/-- The list script's output on `wFsB`'s single report. -/
def wV2Out : V2Output :=
  ⟨[strL "Haggle Prophet"],
   [(strL "Haggle Prophet", [(strL "delivery_prob", [(100, some (mkRat 1 2))])])]⟩

/-! ## Empty result sets -/

/-- A report whose filename parses but whose content yields no metric. -/
def c5Fs : List Char → Option (List (List Char)) := fun p =>
  if p = strL "prophettuned_scenario1_MessageStatsReport.txt" then some [strL "hello"]
  else none

/-- The glob script's output on `c5Fs`: a plot of pure NaN series. -/
def c5Out : V1Output :=
  ⟨[strL "Prophet"], [1],
   [(strL "Prophet",
     [(strL "delivery_prob", [none]),
      (strL "overhead_ratio", [none]),
      (strL "latency_avg", [none]),
      (strL "latency_med", [none]),
      (strL "buffertime_avg", [none]),
      (strL "buffertime_med", [none])])],
   [(strL "Prophet", 1, strL "delivery_prob"),
    (strL "Prophet", 1, strL "overhead_ratio"),
    (strL "Prophet", 1, strL "latency_avg"),
    (strL "Prophet", 1, strL "latency_med"),
    (strL "Prophet", 1, strL "buffertime_avg"),
    (strL "Prophet", 1, strL "buffertime_med")]⟩

/-! ## The scenario axis and missing-data warnings of the glob script -/

abbrev Warn := List Char × ℕ × List Char

/-- Two-protocol filesystem: `Prophet` has scenario 1, `Prophet Random` only
scenario 2. -/
def w9Fs : List Char → Option (List (List Char)) := fun p =>
  if p = strL "prophettuned_scenario1_MessageStatsReport.txt" then
    some [strL "delivery_prob: 0.5"]
  else if p = strL "prophetrandomtuned_scenario2_MessageStatsReport.txt" then
    some [strL "delivery_prob: 0.25"]
  else none

def w9Files : List (List Char) :=
  [strL "prophettuned_scenario1_MessageStatsReport.txt",
   strL "prophetrandomtuned_scenario2_MessageStatsReport.txt"]

/-- The glob script's output on `w9Fs`: the axis is `[1]`, from `Prophet`
alone; `Prophet Random`'s scenario 2 is dropped and its series is all NaN. -/
def w9Out : V1Output :=
  ⟨[strL "Prophet", strL "Prophet Random"], [1],
   [(strL "Prophet",
     [(strL "delivery_prob", [some (mkRat 1 2)]),
      (strL "overhead_ratio", [none]),
      (strL "latency_avg", [none]),
      (strL "latency_med", [none]),
      (strL "buffertime_avg", [none]),
      (strL "buffertime_med", [none])]),
    (strL "Prophet Random",
     [(strL "delivery_prob", [none]),
      (strL "overhead_ratio", [none]),
      (strL "latency_avg", [none]),
      (strL "latency_med", [none]),
      (strL "buffertime_avg", [none]),
      (strL "buffertime_med", [none])])],
   [(strL "Prophet", 1, strL "overhead_ratio"),
    (strL "Prophet", 1, strL "latency_avg"),
    (strL "Prophet", 1, strL "latency_med"),
    (strL "Prophet", 1, strL "buffertime_avg"),
    (strL "Prophet", 1, strL "buffertime_med"),
    (strL "Prophet Random", 1, strL "delivery_prob"),
    (strL "Prophet Random", 1, strL "overhead_ratio"),
    (strL "Prophet Random", 1, strL "latency_avg"),
    (strL "Prophet Random", 1, strL "latency_med"),
    (strL "Prophet Random", 1, strL "buffertime_avg"),
    (strL "Prophet Random", 1, strL "buffertime_med")]⟩

theorem ratSub_eq (a b : ℚ) : ratSub a b = a - b := (Rat.sub_def' a b).symm

theorem itrunc_intCast (n : ℤ) : itrunc ((n : ℤ) : ℚ) = n := by
  unfold itrunc
  rw [Rat.num_intCast, Rat.den_intCast]
  split <;> omega

theorem itrunc_zero : itrunc 0 = 0 := by
  have h := itrunc_intCast 0
  simpa using h

theorem specDeltaTail_eq (t : List (Option ℤ)) : ∀ prev : Option ℤ,
    (List.zipWith osub (t.map (Option.map qcast))
        (Option.map qcast prev :: t.map (Option.map qcast))).map (fun o => itrunc (o.getD 0))
      = specDeltaTail prev t := by
  induction t with
  | nil => intro prev; rfl
  | cons x r ih =>
    intro prev
    have hx := ih x
    simp only [List.map_cons, List.zipWith_cons_cons, specDeltaTail] at hx ⊢
    rw [hx]
    congr 1
    cases prev with
    | none => cases x <;> simp [osub, itrunc_zero]
    | some b =>
      cases x with
      | none => simp [osub, itrunc_zero]
      | some a =>
        have hsub : ratSub (qcast a) (qcast b) = ((a - b : ℤ) : ℚ) := by
          rw [ratSub_eq]; unfold qcast; push_cast; ring
        show itrunc ((osub (some (qcast a)) (some (qcast b))).getD 0) = a - b
        rw [show osub (some (qcast a)) (some (qcast b)) = some (ratSub (qcast a) (qcast b)) from rfl,
          Option.getD_some, hsub, itrunc_intCast]

/-- C1: for the cumulative-popularity matrix input, the per-window series the
script computes is exactly the Reshaper rule of the specification —
`window[0] = cumulative[0]`, `window[i] = cumulative[i] − cumulative[i−1]`
for `i > 0`, windows touched by a missing (unparseable) sample being zero —
and on the worked example (header `Pop@3600,Pop@7200`, row `A1,10,15`) the
delta series is `[10, 5]`. -/
theorem matrix_window_deltas :
    (∀ c : List (Option ℤ),
        windowPopularity (c.map (Option.map qcast)) = specWindowDeltas c)
    ∧ plot_node_popularity popMatrixFs (strL "pop.csv") (strL "A1") =
        .ok ⟨[10, 5], [3600, 7200]⟩ := by
  constructor
  · intro c
    cases c with
    | nil => rfl
    | cons c0 t =>
      have htail := specDeltaTail_eq t c0
      have hhead : itrunc ((Option.map qcast c0).getD 0) = c0.getD 0 := by
        cases c0 with
        | none => simpa using itrunc_zero
        | some a => simpa [qcast] using itrunc_intCast a
      simp only [List.map_cons, windowPopularity, specWindowDeltas]
      rw [hhead, htail]
  · decide

/-- C10: every per-window delta is truncated toward zero to an integer
(`fillna(0).astype(int)`) before plotting: the bar heights are the
`itrunc`-image of the exact differences, and on a fractional cumulative
series (`A1,10.5,12.3`) the plotted bars `[10, 1]` differ from the exact
float differences `[21/2, 9/5]`. -/
theorem window_deltas_truncated :
    (∀ c : List (Option ℚ), windowPopularity c = (exactDeltas c).map itrunc)
    ∧ plot_node_popularity fracMatrixFs (strL "pop.csv") (strL "A1") =
        .ok ⟨[10, 1], [3600, 7200]⟩
    ∧ exactDeltas [some (mkRat 21 2), some (mkRat 123 10)] = [mkRat 21 2, mkRat 9 5]
    ∧ (windowPopularity [some (mkRat 21 2), some (mkRat 123 10)]).map (fun z => ((z : ℤ) : ℚ))
        ≠ exactDeltas [some (mkRat 21 2), some (mkRat 123 10)] := by
  refine ⟨?_, by decide, by decide, by decide⟩
  intro c
  cases c <;> simp [windowPopularity, exactDeltas, List.map_map]

/-- C8: when the requested node id is absent from the matrix row index, the
run ends in the `nodeNotFound` diagnostic carrying the list of available
node ids, and no chart is produced. -/
theorem node_not_found_diag (fs : List Char → Option (List (List Char)))
    (file nodeId : List Char) (lines : List (List Char)) (df : Frame)
    (hread : fs file = some lines) (hcsv : readCsv lines = some df)
    (habs : nodeId ∉ df.rows.map Prod.fst) :
    plot_node_popularity fs file nodeId = .error (.nodeNotFound (df.rows.map Prod.fst)) := by
  have hfind : df.rows.find? (fun r => r.1 = nodeId) = none := by
    rw [List.find?_eq_none]
    intro r hr
    simp only [decide_eq_true_eq]
    intro h
    exact habs (List.mem_map.mpr ⟨r, hr, by rw [h]⟩)
  unfold plot_node_popularity
  simp only [hread, hcsv, hfind]

/-- Closed instance of `node_not_found_diag`: asking the example matrix for
node `Z9` reports not-found with available id list `[A1]`. -/
theorem node_not_found_diag_witness :
    plot_node_popularity popMatrixFs (strL "pop.csv") (strL "Z9") =
      .error (.nodeNotFound [strL "A1"]) := by
  have h := node_not_found_diag popMatrixFs (strL "pop.csv") (strL "Z9")
    [strL "Pop@3600,Pop@7200", strL "A1,10,15"]
    ⟨[strL "Pop@3600", strL "Pop@7200"], [(strL "A1", [strL "10", strL "15"])]⟩
    (by decide) (by decide) (by decide)
  simpa using h

/-! ## Association-list (Python dict) lemmas -/

section PyDict

variable {α β : Type} [DecidableEq α]

theorem pyGet_pySet_self (k : α) (v : β) (d : List (α × β)) :
    pyGet k (pySet k v d) = some v := by
  induction d with
  | nil => simp [pySet, pyGet]
  | cons kv t ih =>
    obtain ⟨k0, v0⟩ := kv
    by_cases h : k0 = k <;> simp [pySet, pyGet, h, ih]

theorem pyGet_pySet_ne (k k' : α) (v : β) (d : List (α × β)) (h : k ≠ k') :
    pyGet k' (pySet k v d) = pyGet k' d := by
  induction d with
  | nil => simp [pySet, pyGet, h]
  | cons kv t ih =>
    obtain ⟨k0, v0⟩ := kv
    by_cases h0 : k0 = k
    · subst h0
      simp [pySet, pyGet, h]
    · simp [pySet, pyGet, h0, ih]

theorem pyKeys_pySet (k : α) (v : β) (d : List (α × β)) :
    pyKeys (pySet k v d) = if k ∈ pyKeys d then pyKeys d else pyKeys d ++ [k] := by
  induction d with
  | nil => simp [pySet, pyKeys]
  | cons kv t ih =>
    obtain ⟨k0, v0⟩ := kv
    by_cases h : k0 = k
    · subst h
      simp [pySet, pyKeys]
    · have hne : ¬ k = k0 := fun hc => h hc.symm
      simp only [pySet, pyKeys, List.map_cons, if_neg h]
      simp only [pyKeys] at ih
      rw [ih]
      by_cases hmem : k ∈ List.map Prod.fst t
      · rw [if_pos hmem, if_pos (List.mem_cons_of_mem _ hmem)]
      · rw [if_neg hmem, if_neg (by simp [hne, hmem]), List.cons_append]

theorem pyKeys_nodup_pySet (k : α) (v : β) (d : List (α × β))
    (h : (pyKeys d).Nodup) : (pyKeys (pySet k v d)).Nodup := by
  rw [pyKeys_pySet]
  split
  · exact h
  · next hk =>
    simpa [List.nodup_append, hk] using h

theorem pyGet_isSome_iff_mem (k : α) (d : List (α × β)) :
    (pyGet k d).isSome ↔ k ∈ pyKeys d := by
  induction d with
  | nil => simp [pyGet, pyKeys]
  | cons kv t ih =>
    obtain ⟨k0, v0⟩ := kv
    by_cases h : k0 = k
    · subst h
      simp [pyGet, pyKeys]
    · have hne : ¬ k = k0 := fun hc => h hc.symm
      simp only [pyGet, if_neg h, pyKeys, List.map_cons, List.mem_cons]
      rw [ih]
      simp [pyKeys, hne]

end PyDict

/-- A fold preserves any invariant its step preserves. -/
theorem foldl_inv {γ δ : Type} {P : γ → Prop} {f : γ → δ → γ}
    (hf : ∀ d a, P d → P (f d a)) :
    ∀ (l : List δ) (d : γ), P d → P (l.foldl f d)
  | [], _, h => h
  | a :: t, d, h => foldl_inv hf t (f d a) (hf d a h)

/-- A sorted list without duplicates is strictly sorted. -/
theorem sorted_lt_of_le_nodup {γ : Type} [LinearOrder γ] {l : List γ}
    (hs : l.Sorted (· ≤ ·)) (hn : l.Nodup) : l.Sorted (· < ·) :=
  (List.Pairwise.and hs hn).imp (fun h => lt_of_le_of_ne h.1 h.2)

/-- Sorting a duplicate-free list with `≤` yields a strictly ascending list. -/
theorem insertionSort_sorted_lt {γ : Type} [LinearOrder γ] {l : List γ} (hn : l.Nodup) :
    (List.insertionSort (· ≤ ·) l).Sorted (· < ·) :=
  sorted_lt_of_le_nodup (List.sorted_insertionSort _ _)
    ((List.perm_insertionSort _ _).symm.nodup hn)

theorem v1Inv_nil : v1Inv [] := by
  constructor
  · simp [pyKeys]
  · intro p inner h
    simp [pyGet] at h

theorem v1Inv_pySet {d : V1Data} {p : List Char} {inner : List (ℕ × Metrics)}
    (hd : v1Inv d) (hin : (pyKeys inner).Nodup) : v1Inv (pySet p inner d) := by
  refine ⟨pyKeys_nodup_pySet _ _ _ hd.1, ?_⟩
  intro q i h
  by_cases hq : p = q
  · subst hq
    rw [pyGet_pySet_self] at h
    cases h
    exact hin
  · rw [pyGet_pySet_ne _ _ _ _ hq] at h
    exact hd.2 q i h

theorem v1Inv_inner {d : V1Data} (hd : v1Inv d) (p : List Char) :
    (pyKeys ((pyGet p d).getD [])).Nodup := by
  cases h : pyGet p d with
  | none => simp [pyKeys]
  | some i => simpa using hd.2 p i h

theorem v1InitDicts_def (p : List Char) (sc : ℕ) (d : V1Data) :
    v1InitDicts p sc d =
      (fun d1 => if (pyGet sc ((pyGet p d1).getD [])).isSome then d1
                 else pySet p (pySet sc [] ((pyGet p d1).getD [])) d1)
        (if (pyGet p d).isSome then d else pySet p [] d) := rfl

theorem v1Inv_initDicts {d : V1Data} (p : List Char) (sc : ℕ) (hd : v1Inv d) :
    v1Inv (v1InitDicts p sc d) := by
  rw [v1InitDicts_def]
  set d1 := if (pyGet p d).isSome then d else pySet p [] d with hdef
  have hd1 : v1Inv d1 := by
    rw [hdef]
    split
    · exact hd
    · exact v1Inv_pySet hd (by simp [pyKeys])
  dsimp only
  split
  · exact hd1
  · exact v1Inv_pySet hd1 (pyKeys_nodup_pySet _ _ _ (v1Inv_inner hd1 p))

theorem v1Inv_store {d : V1Data} (p : List Char) (sc : ℕ) (k : List Char) (v : Option ℚ)
    (hd : v1Inv d) : v1Inv (v1Store p sc k v d) := by
  unfold v1Store
  exact v1Inv_pySet hd (pyKeys_nodup_pySet _ _ _ (v1Inv_inner hd p))

theorem v1Inv_step (fs : List Char → Option (List (List Char))) (d : V1Data)
    (path : List Char) (hd : v1Inv d) : v1Inv (v1Step fs d path) := by
  unfold v1Step
  split
  · exact hd
  · next p sc _ =>
    have h1 := v1Inv_initDicts p sc hd
    split
    · exact h1
    · exact foldl_inv (fun d line h => by
        unfold v1ProcessLine
        split
        · next k v _ => exact v1Inv_store _ _ _ _ h
        · exact h) _ _ h1

theorem v1Inv_data (fs : List Char → Option (List (List Char)))
    (files : List (List Char)) : v1Inv (v1Data fs files) :=
  foldl_inv (fun d path h => v1Inv_step fs d path h) _ _ v1Inv_nil

/-- `mainV1` with the `let`-bindings written out, for case splitting. -/
theorem mainV1_eq (fs : List Char → Option (List (List Char))) (gl : List (List Char)) :
    mainV1 fs gl =
      if gl.isEmpty then .error .noFiles
      else if (v1Data fs gl).isEmpty then .error .noData
      else
        match List.insertionSort (· ≤ ·) (pyKeys (v1Data fs gl)) with
        | [] => .error .noScenarios
        | p0 :: _ =>
          if (pyKeys ((pyGet p0 (v1Data fs gl)).getD [])).isEmpty then .error .noScenarios
          else
            .ok ⟨List.insertionSort (· ≤ ·) (pyKeys (v1Data fs gl)),
                 List.insertionSort (· ≤ ·) (pyKeys ((pyGet p0 (v1Data fs gl)).getD [])),
                 v1PlotData (v1Data fs gl) (List.insertionSort (· ≤ ·) (pyKeys (v1Data fs gl)))
                   (List.insertionSort (· ≤ ·) (pyKeys ((pyGet p0 (v1Data fs gl)).getD []))),
                 v1Warnings (v1Data fs gl) (List.insertionSort (· ≤ ·) (pyKeys (v1Data fs gl)))
                   (List.insertionSort (· ≤ ·) (pyKeys ((pyGet p0 (v1Data fs gl)).getD [])))⟩ :=
  rfl

/-- `mainV2Core` with the `let`-bindings written out. -/
theorem mainV2Core_eq (fs : List Char → Option (List (List Char))) (dir : List Char)
    (entries : List (List Char)) :
    mainV2Core fs dir entries =
      if (v2Records fs dir entries).isEmpty then
        .error (strL "No data successfully parsed. Exiting.")
      else
        if (List.insertionSort (· ≤ ·)
              (pyKeys (v2SortSeries (v2Build (v2Records fs dir entries))))).isEmpty then
          .error (strL "No valid prophet types found in the parsed data. Cannot plot.")
        else
          .ok ⟨List.insertionSort (· ≤ ·)
                 (pyKeys (v2SortSeries (v2Build (v2Records fs dir entries)))),
               v2SortSeries (v2Build (v2Records fs dir entries))⟩ :=
  rfl

theorem v1Files_perm {l₁ l₂ : List (List Char)} (h : l₁.Perm l₂) :
    v1Files l₁ = v1Files l₂ :=
  List.eq_of_perm_of_sorted
    ((List.perm_insertionSort _ l₁).trans (h.trans (List.perm_insertionSort _ l₂).symm))
    (List.sorted_insertionSort _ _) (List.sorted_insertionSort _ _)

theorem mainV1_perm (fs : List Char → Option (List (List Char)))
    {l₁ l₂ : List (List Char)} (h : l₁.Perm l₂) : mainV1 fs l₁ = mainV1 fs l₂ := by
  have hd : v1Data fs l₁ = v1Data fs l₂ := by
    unfold v1Data
    rw [v1Files_perm h]
  have hlen := h.length_eq
  have he : l₁.isEmpty = l₂.isEmpty := by
    cases l₁ <;> cases l₂ <;> simp_all
  rw [mainV1_eq, mainV1_eq, he, hd]

theorem mainV1_ok_sorted (fs : List Char → Option (List (List Char)))
    (l : List (List Char)) (o : V1Output) (h : mainV1 fs l = .ok o) :
    o.protocols.Sorted (· < ·) ∧ o.scenarios.Sorted (· < ·) := by
  have hinv := v1Inv_data fs l
  rw [mainV1_eq] at h
  split at h
  · cases h
  split at h
  · cases h
  split at h
  · cases h
  next p0 rest heq =>
    split at h
    · cases h
    cases h
    dsimp only
    refine ⟨?_, ?_⟩
    · exact insertionSort_sorted_lt hinv.1
    · exact insertionSort_sorted_lt (v1Inv_inner hinv p0)

theorem v2Build_keys_nodup (rs : List ParsedFile) : (pyKeys (v2Build rs)).Nodup := by
  unfold v2Build
  refine @foldl_inv _ _ (fun d => (pyKeys d).Nodup) v2BuildStep
    (fun d r hd => ?_) rs [] List.nodup_nil
  unfold v2BuildStep
  exact @foldl_inv _ _ (fun d2 => (pyKeys d2).Nodup) _
    (fun d2 km hd2 => pyKeys_nodup_pySet _ _ _ hd2) _ _ hd

theorem v2SortSeries_keys (d : SeriesMap) : pyKeys (v2SortSeries d) = pyKeys d := by
  unfold v2SortSeries pyKeys
  rw [List.map_map]
  rfl

theorem mainV2_ok_sorted (fs : List Char → Option (List (List Char))) (dir : List Char)
    (entries : List (List Char)) (o : V2Output) (h : mainV2Core fs dir entries = .ok o) :
    o.prophetTypes.Sorted (· < ·) ∧
      ∀ pe ∈ o.series, ∀ ms ∈ pe.2, (ms.2.map Prod.fst).Sorted (· ≤ ·) := by
  rw [mainV2Core_eq] at h
  split at h
  · cases h
  split at h
  · cases h
  cases h
  dsimp only
  constructor
  · refine insertionSort_sorted_lt ?_
    rw [v2SortSeries_keys]
    exact v2Build_keys_nodup _
  · intro pe hpe ms hms
    unfold v2SortSeries at hpe
    obtain ⟨pe0, hpe0, rfl⟩ := List.mem_map.mp hpe
    obtain ⟨ms0, hms0, rfl⟩ := List.mem_map.mp hms
    exact List.pairwise_map.mpr (List.sorted_insertionSort scLE ms0.2)

/-- C3: the group keys (protocol and prophet-type names) and the scenario
numbers of the reshaped plotting data are sorted strictly ascending
(series points ascending by scenario), and the glob script's whole result is
invariant under permuting the discovered file list (the list is sorted before
processing). -/
theorem ordering_deterministic :
    (∀ (fs : List Char → Option (List (List Char))) (l₁ l₂ : List (List Char)),
        l₁.Perm l₂ → mainV1 fs l₁ = mainV1 fs l₂)
    ∧ (∀ fs l o, mainV1 fs l = .ok o →
        o.protocols.Sorted (· < ·) ∧ o.scenarios.Sorted (· < ·))
    ∧ (∀ fs dir entries o, mainV2Core fs dir entries = .ok o →
        o.prophetTypes.Sorted (· < ·) ∧
          ∀ pe ∈ o.series, ∀ ms ∈ pe.2, (ms.2.map Prod.fst).Sorted (· ≤ ·)) :=
  ⟨fun fs _ _ h => mainV1_perm fs h, mainV1_ok_sorted, mainV2_ok_sorted⟩

/-- Closed instance of `ordering_deterministic`: swapping two discovered
files leaves the glob script's result unchanged, and both scripts' concrete
outputs are sorted ascending. -/
theorem ordering_deterministic_witness :
    (mainV1 wFsA [strL "b.txt", strL "prophettuned_scenario1_MessageStatsReport.txt"]
      = mainV1 wFsA [strL "prophettuned_scenario1_MessageStatsReport.txt", strL "b.txt"])
    ∧ (wV1Out.protocols.Sorted (· < ·) ∧ wV1Out.scenarios.Sorted (· < ·))
    ∧ (wV2Out.prophetTypes.Sorted (· < ·) ∧
        ∀ pe ∈ wV2Out.series, ∀ ms ∈ pe.2, (ms.2.map Prod.fst).Sorted (· ≤ ·)) :=
  ⟨ordering_deterministic.1 wFsA _ _
      (List.Perm.swap (strL "prophettuned_scenario1_MessageStatsReport.txt") (strL "b.txt") []),
   ordering_deterministic.2.1 wFsA
      [strL "prophettuned_scenario1_MessageStatsReport.txt"] wV1Out (by decide),
   ordering_deterministic.2.2 wFsB (strL "/d")
      [strL "HaggleProphet100_MessageStatsReport.txt"] wV2Out (by decide)⟩

/-! ## Evaluating the line parsers on well-formed `key: value` lines -/

theorem dropWhile_ws_append (w l : List Char) (hw : ∀ c ∈ w, isWS c = true) :
    (w ++ l).dropWhile isWS = l.dropWhile isWS := by
  induction w with
  | nil => rfl
  | cons c t ih =>
    rw [List.cons_append, List.dropWhile_cons, hw c (by simp)]
    exact ih (fun c hc => hw c (by simp [hc]))

theorem dropWhile_cons_nonws (c : Char) (l : List Char) (hc : isWS c = false) :
    (c :: l).dropWhile isWS = c :: l := by
  rw [List.dropWhile_cons, hc]
  simp

theorem dropWhile_ws_of_nonws (l : List Char) (h : ∀ c ∈ l, isWS c = false) :
    l.dropWhile isWS = l := by
  cases l with
  | nil => rfl
  | cons c t => exact dropWhile_cons_nonws c t (h c (by simp))

theorem strip_of_nonws (l : List Char) (h : ∀ c ∈ l, isWS c = false) : strip l = l := by
  unfold strip
  rw [dropWhile_ws_of_nonws l h,
    dropWhile_ws_of_nonws l.reverse (fun c hc => h c (List.mem_reverse.mp hc)),
    List.reverse_reverse]

/-- Stripping removes exactly a whitespace sandwich around a text that starts
and ends with non-whitespace. -/
theorem strip_sandwich {w0 w3 X : List Char}
    (h0 : ∀ c ∈ w0, isWS c = true) (h3 : ∀ c ∈ w3, isWS c = true)
    (hhead : ∃ xc xt, X = xc :: xt ∧ isWS xc = false)
    (hlast : ∃ yc yt, X.reverse = yc :: yt ∧ isWS yc = false) :
    strip (w0 ++ X ++ w3) = X := by
  obtain ⟨xc, xt, rfl, hxc⟩ := hhead
  obtain ⟨yc, yt, hrev, hyc⟩ := hlast
  unfold strip
  rw [List.append_assoc, dropWhile_ws_append _ _ h0,
    show (xc :: xt) ++ w3 = xc :: (xt ++ w3) from rfl,
    dropWhile_cons_nonws _ _ hxc,
    show xc :: (xt ++ w3) = (xc :: xt) ++ w3 from rfl,
    List.reverse_append,
    dropWhile_ws_append _ _ (fun c hc => h3 c (List.mem_reverse.mp hc)),
    hrev, dropWhile_cons_nonws _ _ hyc, ← hrev, List.reverse_reverse]

theorem takeWhile_ne_colon (k w : List Char) (hk : ':' ∉ k) :
    ((k ++ ':' :: w).takeWhile (fun c => c != ':')) = k := by
  induction k with
  | nil => simp [List.takeWhile_cons]
  | cons c t ih =>
    have hc : (c != ':') = true := by
      simp only [bne_iff_ne, ne_eq]
      exact fun h => hk (by simp [h])
    rw [List.cons_append, List.takeWhile_cons, hc]
    simp [ih (fun h => hk (by simp [h]))]

theorem drop_key_colon (k w : List Char) : (k ++ ':' :: w).drop (k.length + 1) = w := by
  rw [show k ++ ':' :: w = (k ++ [':']) ++ w from by simp,
    show k.length + 1 = (k ++ [':']).length from by simp,
    List.drop_left]

/-- Derived facts about the whitelist keys: nonempty, whitespace free,
colon free. -/
theorem metricsToPlot_clean :
    ∀ k ∈ metricsToPlot, k ≠ [] ∧ (∀ c ∈ k, isWS c = false) ∧ ':' ∉ k := by
  decide

/-- Evaluation of the glob script's line parser on a line whose strip is
`key:` followed by a whitespace run and the value text. -/
theorem colon_not_mem_key_ws {key w1 : List Char} (hkcol : ':' ∉ key)
    (hw1 : ∀ c ∈ w1, isWS c = true) : ':' ∉ key ++ w1 := by
  intro hc
  rcases List.mem_append.mp hc with hc | hc
  · exact hkcol hc
  · exact absurd (hw1 _ hc) (by decide)

/-- Stripping a key text with trailing whitespace. -/
theorem strip_key_ws (key w1 : List Char) (hkne : key ≠ [])
    (hknws : ∀ c ∈ key, isWS c = false) (hw1 : ∀ c ∈ w1, isWS c = true) :
    strip (key ++ w1) = key := by
  have h := @strip_sandwich [] w1 key (by simp) hw1
    (by
      cases key with
      | nil => exact absurd rfl hkne
      | cons a b => exact ⟨a, b, rfl, hknws a (by simp)⟩)
    (by
      cases hkr : key.reverse with
      | nil => exact absurd (List.reverse_eq_nil_iff.mp hkr) hkne
      | cons a b =>
        exact ⟨a, b, rfl, hknws a (by rw [← List.mem_reverse, hkr]; simp)⟩)
  simpa using h

theorem processLineV1_eval {line key w1 w2 v : List Char}
    (hstrip : strip line = key ++ w1 ++ ':' :: (w2 ++ v))
    (hkmem : key ∈ metricsToPlot) (hkcol : ':' ∉ key) (hkne : key ≠ [])
    (hknws : ∀ c ∈ key, isWS c = false)
    (hw1 : ∀ c ∈ w1, isWS c = true)
    (hw2 : ∀ c ∈ w2, isWS c = true) (hv : ∀ c ∈ v, isWS c = false) :
    processLineV1 line = some (key, pyFloat v) := by
  have hkemp : ((key ++ w1).isEmpty) = false := by
    cases key
    · exact absurd rfl hkne
    · rfl
  rw [show key ++ w1 ++ ':' :: (w2 ++ v) = (key ++ w1) ++ ':' :: (w2 ++ v) from by simp]
    at hstrip
  simp only [processLineV1]
  rw [hstrip, if_pos (by simp : ':' ∈ (key ++ w1) ++ ':' :: (w2 ++ v)),
    takeWhile_ne_colon (key ++ w1) (w2 ++ v) (colon_not_mem_key_ws hkcol hw1), hkemp]
  simp only [Bool.false_eq_true, if_false]
  rw [strip_key_ws key w1 hkne hknws hw1, drop_key_colon, dropWhile_ws_append _ _ hw2,
    dropWhile_ws_of_nonws v hv, strip_of_nonws v hv, if_pos hkmem]

/-- Evaluation of the list script's line parser on the same line shape. -/
theorem processLineV2_eval {line key w1 w2 v : List Char}
    (hstrip : strip line = key ++ w1 ++ ':' :: (w2 ++ v))
    (hkmem : key ∈ metricsToPlot) (hkcol : ':' ∉ key) (hkne : key ≠ [])
    (hknws : ∀ c ∈ key, isWS c = false)
    (hw1 : ∀ c ∈ w1, isWS c = true)
    (hw2 : ∀ c ∈ w2, isWS c = true) (hv : ∀ c ∈ v, isWS c = false) (hvne : v ≠ []) :
    processLineV2 line = some (key, pyFloat v) := by
  obtain ⟨vc, vt, hvrev, hvc⟩ : ∃ vc vt, v.reverse = vc :: vt ∧ isWS vc = false := by
    cases hvr : v.reverse with
    | nil => exact absurd (List.reverse_eq_nil_iff.mp hvr) hvne
    | cons a b =>
      exact ⟨a, b, rfl, hv a (by rw [← List.mem_reverse, hvr]; simp)⟩
  have hw2v : strip (w2 ++ v) = v := by
    have := @strip_sandwich w2 [] v hw2 (by simp)
      (by
        cases v with
        | nil => exact absurd rfl hvne
        | cons a b => exact ⟨a, b, rfl, hv a (by simp)⟩)
      ⟨vc, vt, hvrev, hvc⟩
    simpa using this
  rw [show key ++ w1 ++ ':' :: (w2 ++ v) = (key ++ w1) ++ ':' :: (w2 ++ v) from by simp]
    at hstrip
  simp only [processLineV2]
  rw [hstrip, if_pos (by simp : ':' ∈ (key ++ w1) ++ ':' :: (w2 ++ v)),
    takeWhile_ne_colon (key ++ w1) (w2 ++ v) (colon_not_mem_key_ws hkcol hw1),
    strip_key_ws key w1 hkne hknws hw1, drop_key_colon, hw2v, if_pos hkmem]

/-- The strip of a well-formed `key: value` report line. -/
theorem strip_line_shape {key w0 v w3 : List Char} (w1 w2 : List Char)
    (hw0 : ∀ c ∈ w0, isWS c = true) (hw1 : ∀ c ∈ w1, isWS c = true)
    (hw3 : ∀ c ∈ w3, isWS c = true)
    (hkne : key ≠ []) (hknws : ∀ c ∈ key, isWS c = false)
    (hv : ∀ c ∈ v, isWS c = false) (hvne : v ≠ []) :
    strip (w0 ++ key ++ w1 ++ ':' :: (w2 ++ v ++ w3)) = key ++ w1 ++ ':' :: (w2 ++ v) := by
  obtain ⟨vc, vt, hvrev, hvc⟩ : ∃ vc vt, v.reverse = vc :: vt ∧ isWS vc = false := by
    cases hvr : v.reverse with
    | nil => exact absurd (List.reverse_eq_nil_iff.mp hvr) hvne
    | cons a b =>
      exact ⟨a, b, rfl, hv a (by rw [← List.mem_reverse, hvr]; simp)⟩
  obtain ⟨kc, kt, hkeq⟩ : ∃ kc kt, key = kc :: kt := by
    cases key with
    | nil => exact absurd rfl hkne
    | cons a b => exact ⟨a, b, rfl⟩
  have hline : w0 ++ key ++ w1 ++ ':' :: (w2 ++ v ++ w3)
      = w0 ++ (key ++ w1 ++ ':' :: (w2 ++ v)) ++ w3 := by
    simp [List.append_assoc]
  have hXrev : (key ++ w1 ++ ':' :: (w2 ++ v)).reverse
      = vc :: (vt ++ (w2.reverse ++ ':' :: (w1.reverse ++ key.reverse))) := by
    rw [show (key ++ w1 ++ ':' :: (w2 ++ v)).reverse
        = v.reverse ++ (w2.reverse ++ ':' :: (w1.reverse ++ key.reverse)) from by simp,
      hvrev]
    rfl
  rw [hline]
  exact @strip_sandwich w0 w3 (key ++ w1 ++ ':' :: (w2 ++ v)) hw0 hw3
    ⟨kc, kt ++ (w1 ++ ':' :: (w2 ++ v)), by rw [hkeq]; simp, by
      exact hknws kc (by rw [hkeq]; simp)⟩
    ⟨vc, vt ++ (w2.reverse ++ ':' :: (w1.reverse ++ key.reverse)), hXrev, hvc⟩

/-- C2: on a well-formed `key: value` line with a whitelisted key, both
scripts store exactly the rational value of the literal value text, as parsed
by `pyFloat` — no transformation or precision loss after the parse. -/
theorem parsed_values_exact (key w0 w1 w2 v w3 : List Char) (q : ℚ)
    (hk : key ∈ metricsToPlot)
    (hw0 : ∀ c ∈ w0, isWS c = true) (hw1 : ∀ c ∈ w1, isWS c = true)
    (hw2 : ∀ c ∈ w2, isWS c = true) (hw3 : ∀ c ∈ w3, isWS c = true)
    (hv : ∀ c ∈ v, isWS c = false) (hvne : v ≠ [])
    (hq : pyFloat v = some q) :
    processLineV1 (w0 ++ key ++ w1 ++ ':' :: (w2 ++ v ++ w3)) = some (key, some q)
    ∧ processLineV2 (w0 ++ key ++ w1 ++ ':' :: (w2 ++ v ++ w3)) = some (key, some q) := by
  obtain ⟨hkne, hknws, hkcol⟩ := metricsToPlot_clean key hk
  have hstrip := strip_line_shape w1 w2 hw0 hw1 hw3 hkne hknws hv hvne
  constructor
  · rw [processLineV1_eval hstrip hk hkcol hkne hknws hw1 hw2 hv, hq]
  · rw [processLineV2_eval hstrip hk hkcol hkne hknws hw1 hw2 hv hvne, hq]

/-- Closed instance of `parsed_values_exact`: the line
`delivery_prob: 0.2979` stores exactly `2979/10000`. -/
theorem parsed_values_exact_witness :
    processLineV1 (strL "delivery_prob: 0.2979")
      = some (strL "delivery_prob", some (mkRat 2979 10000))
    ∧ processLineV2 (strL "delivery_prob: 0.2979")
      = some (strL "delivery_prob", some (mkRat 2979 10000)) := by
  have h := parsed_values_exact (strL "delivery_prob") [] [] [' '] (strL "0.2979") []
    (mkRat 2979 10000) (by decide) (by decide) (by decide) (by decide) (by decide)
    (by decide) (by decide) (by decide)
  exact h

/-- C7: a whitelisted key whose value text does not convert to a number is
recorded as NaN (`none`) by both scripts' line parsers, and the per-file fold
simply proceeds to the remaining lines with that NaN stored — the failure is
not fatal. -/
theorem unparseable_value_stored_nan (key w0 w1 w2 v w3 : List Char)
    (hk : key ∈ metricsToPlot)
    (hw0 : ∀ c ∈ w0, isWS c = true) (hw1 : ∀ c ∈ w1, isWS c = true)
    (hw2 : ∀ c ∈ w2, isWS c = true) (hw3 : ∀ c ∈ w3, isWS c = true)
    (hv : ∀ c ∈ v, isWS c = false) (hvne : v ≠ [])
    (hbad : pyFloat v = none) :
    processLineV1 (w0 ++ key ++ w1 ++ ':' :: (w2 ++ v ++ w3)) = some (key, none)
    ∧ processLineV2 (w0 ++ key ++ w1 ++ ':' :: (w2 ++ v ++ w3)) = some (key, none)
    ∧ (∀ (p : List Char) (sc : ℕ) (d : V1Data) (rest : List (List Char)),
        ((w0 ++ key ++ w1 ++ ':' :: (w2 ++ v ++ w3)) :: rest).foldl (v1ProcessLine p sc) d
          = rest.foldl (v1ProcessLine p sc) (v1Store p sc key none d))
    ∧ (∀ (m : Metrics) (rest : List (List Char)),
        ((w0 ++ key ++ w1 ++ ':' :: (w2 ++ v ++ w3)) :: rest).foldl v2MetricsStep m
          = rest.foldl v2MetricsStep (pySet key none m)) := by
  obtain ⟨hkne, hknws, hkcol⟩ := metricsToPlot_clean key hk
  have hstrip := strip_line_shape w1 w2 hw0 hw1 hw3 hkne hknws hv hvne
  have h1 : processLineV1 (w0 ++ key ++ w1 ++ ':' :: (w2 ++ v ++ w3))
      = some (key, none) := by
    rw [processLineV1_eval hstrip hk hkcol hkne hknws hw1 hw2 hv, hbad]
  have h2 : processLineV2 (w0 ++ key ++ w1 ++ ':' :: (w2 ++ v ++ w3))
      = some (key, none) := by
    rw [processLineV2_eval hstrip hk hkcol hkne hknws hw1 hw2 hv hvne, hbad]
  refine ⟨h1, h2, ?_, ?_⟩
  · intro p sc d rest
    rw [List.foldl_cons]
    congr 1
    unfold v1ProcessLine
    rw [h1]
  · intro m rest
    rw [List.foldl_cons]
    congr 1
    unfold v2MetricsStep
    rw [h2]

/-- Closed instance of `unparseable_value_stored_nan` on the line
`delivery_prob: abc`. -/
theorem unparseable_value_stored_nan_witness :
    processLineV1 (strL "delivery_prob: abc") = some (strL "delivery_prob", none)
    ∧ processLineV2 (strL "delivery_prob: abc") = some (strL "delivery_prob", none)
    ∧ [strL "delivery_prob: abc"].foldl (v1ProcessLine (strL "Prophet") 1) []
        = v1Store (strL "Prophet") 1 (strL "delivery_prob") none [] := by
  have h := unparseable_value_stored_nan (strL "delivery_prob") [] [] [' ']
    (strL "abc") [] (by decide) (by decide) (by decide) (by decide) (by decide)
    (by decide) (by decide) (by decide)
  exact ⟨h.1, h.2.1, h.2.2.1 (strL "Prophet") 1 [] []⟩

/-! ## Unrecognized filenames -/

theorem v1Step_unrecognized (fs : List Char → Option (List (List Char))) (d : V1Data)
    (p : List Char) (h : matchFilenameV1 (basename p) = none) : v1Step fs d p = d := by
  unfold v1Step
  rw [h]

theorem v1Data_skip (fs : List Char → Option (List (List Char))) (p : List Char)
    (files : List (List Char)) (h : matchFilenameV1 (basename p) = none) :
    v1Data fs (p :: files) = v1Data fs files := by
  unfold v1Data v1Files
  rw [List.insertionSort_cons_eq_take_drop, List.foldl_append, List.foldl_cons,
    v1Step_unrecognized fs _ p h, ← List.foldl_append, List.takeWhile_append_dropWhile]

theorem parse_unrecognized (b : List Char) (lines : List (List Char))
    (h : v2NameRecognized b = false) : parse_message_stats_file b lines = none := by
  unfold parse_message_stats_file
  cases hbt : parseBaseType (toLowerL b) with
  | none => rfl
  | some bt =>
    cases hvar : parseVariant (toLowerL b) with
    | none => rfl
    | some var =>
      cases hsc : scanScenario b with
      | none => rfl
      | some sc =>
        exfalso
        unfold v2NameRecognized at h
        rw [hbt, hvar, hsc] at h
        simp at h

theorem v2Records_skip (fs : List Char → Option (List (List Char))) (dir e : List Char)
    (pre post : List (List Char))
    (h : v2NameRecognized (basename (resolvePath dir e)) = false) :
    v2Records fs dir (pre ++ e :: post) = v2Records fs dir (pre ++ post) := by
  unfold v2Records
  rw [List.filterMap_append, List.filterMap_append, List.filterMap_cons]
  cases hfs : fs (resolvePath dir e) with
  | none => simp [hfs]
  | some lines => simp [hfs, parse_unrecognized _ lines h]

/-- C6: a file whose name does not match the naming conventions contributes
nothing: the glob script's data dict is unchanged by the file, and the list
script's record list is unchanged, while all other files are still
processed. -/
theorem unrecognized_filename_skipped :
    (∀ (fs : List Char → Option (List (List Char))) (p : List Char)
        (files : List (List Char)), matchFilenameV1 (basename p) = none →
        v1Data fs (p :: files) = v1Data fs files)
    ∧ (∀ (fs : List Char → Option (List (List Char))) (dir e : List Char)
        (pre post : List (List Char)),
        v2NameRecognized (basename (resolvePath dir e)) = false →
        v2Records fs dir (pre ++ e :: post) = v2Records fs dir (pre ++ post)) :=
  ⟨v1Data_skip, v2Records_skip⟩

/-- Closed instance of `unrecognized_filename_skipped`: an `epidemic` report
file is ignored by both scripts. -/
theorem unrecognized_filename_skipped_witness :
    v1Data wFsA [strL "epidemic_scenario1_MessageStatsReport.txt",
        strL "prophettuned_scenario1_MessageStatsReport.txt"]
      = v1Data wFsA [strL "prophettuned_scenario1_MessageStatsReport.txt"]
    ∧ v2Records wFsB (strL "/d")
        ([strL "HaggleProphet100_MessageStatsReport.txt"]
          ++ strL "Epidemic100_MessageStatsReport.txt" :: [])
      = v2Records wFsB (strL "/d") ([strL "HaggleProphet100_MessageStatsReport.txt"] ++ []) :=
  ⟨unrecognized_filename_skipped.1 wFsA _ _ (by decide),
   unrecognized_filename_skipped.2 wFsB (strL "/d")
     (strL "Epidemic100_MessageStatsReport.txt")
     [strL "HaggleProphet100_MessageStatsReport.txt"] [] (by decide)⟩

/-- C5 counterexample: a glob run in which not a single metric value is
parsed from any file (the only file yields an empty metric dict) still ends
in `.ok` — a plot of all-NaN series — instead of the early termination the
claim promises when no data is successfully parsed. -/
theorem no_data_still_plots :
    mainV1 c5Fs [strL "prophettuned_scenario1_MessageStatsReport.txt"] = .ok c5Out
    ∧ (∀ pe ∈ c5Out.plotData, ∀ ks ∈ pe.2, ∀ vv ∈ ks.2, vv = none)
    ∧ (∀ pe ∈ v1Data c5Fs [strL "prophettuned_scenario1_MessageStatsReport.txt"],
        ∀ se ∈ pe.2, se.2 = ([] : Metrics)) := by
  decide

/-- C5 (amended): an empty located file set, an empty glob data dict (no
filename recognized at all) and an empty list-script record set are each
fatal, with a diagnostic and no plot; but a glob file whose name parses
while its content yields no metric value leaves a non-empty dict and
prevents the early exit. -/
theorem empty_inputs_fatal :
    (∀ fs, mainV1 fs [] = .error .noFiles)
    ∧ (∀ (fs : List Char → Option (List (List Char))) (files : List (List Char)),
        v1Data fs files = [] → files ≠ [] → mainV1 fs files = .error .noData)
    ∧ (∀ (fs : List Char → Option (List (List Char))) (dir : List Char)
        (entries : List (List Char)), v2Records fs dir entries = [] →
        mainV2Core fs dir entries = .error (strL "No data successfully parsed. Exiting.")) := by
  refine ⟨fun fs => rfl, ?_, ?_⟩
  · intro fs files hd hne
    have hemp : files.isEmpty = false := by
      cases files
      · exact absurd rfl hne
      · rfl
    rw [mainV1_eq, hemp, hd]
    rfl
  · intro fs dir entries h
    rw [mainV2Core_eq, h]
    rfl

/-- Closed instance of `empty_inputs_fatal`. -/
theorem empty_inputs_fatal_witness :
    mainV1 wFsA [] = .error .noFiles
    ∧ mainV1 wFsA [strL "x.txt"] = .error .noData
    ∧ mainV2Core wFsB (strL "/d") [] =
        .error (strL "No data successfully parsed. Exiting.") :=
  ⟨empty_inputs_fatal.1 wFsA,
   empty_inputs_fatal.2.1 wFsA [strL "x.txt"] (by decide) (by decide),
   empty_inputs_fatal.2.2 wFsB (strL "/d") [] (by decide)⟩

/-! ## The File Locator -/

/-- C4 counterexample: the list script's locator performs no deduplication
and no sorting — a duplicated, unsorted entry list passes through verbatim
(only resolved against the script directory). -/
theorem locator_keeps_duplicates :
    locateFilesV2 (strL "/d") [strL "b", strL "a", strL "a"] (fun _ => true)
      = [strL "/d/b", strL "/d/a", strL "/d/a"]
    ∧ ¬ (locateFilesV2 (strL "/d") [strL "b", strL "a", strL "a"] (fun _ => true)).Nodup
    ∧ ¬ (locateFilesV2 (strL "/d") [strL "b", strL "a", strL "a"]
          (fun _ => true)).Sorted (· ≤ ·) := by
  refine ⟨by decide, by decide, ?_⟩
  intro hs
  rw [show locateFilesV2 (strL "/d") [strL "b", strL "a", strL "a"] (fun _ => true)
      = [strL "/d/b", strL "/d/a", strL "/d/a"] from by decide] at hs
  have h1 := (List.sorted_cons.mp hs).1 (strL "/d/a") (by simp)
  exact absurd h1 (by decide)

/-- C4 (amended): the glob script sorts the discovered list (and, granted
glob's own guarantee of distinct existing paths, hands on a duplicate-free
sorted list of existing files); the list script's locator keeps the entry
list's order, skips missing files non-fatally, and hands on exactly the
resolved entries that exist — with no deduplication or sorting of its own. -/
theorem locator_amended :
    (∀ globResult : List (List Char),
        v1Files globResult = List.insertionSort (· ≤ ·) globResult
        ∧ (v1Files globResult).Sorted (· ≤ ·)
        ∧ (globResult.Nodup → (v1Files globResult).Nodup)
        ∧ ∀ present : List Char → Bool, (∀ p ∈ globResult, present p = true) →
            ∀ p ∈ v1Files globResult, present p = true)
    ∧ (∀ (dir : List Char) (entries : List (List Char)) (present : List Char → Bool),
        (locateFilesV2 dir entries present).Sublist (entries.map (resolvePath dir))
        ∧ (∀ p ∈ locateFilesV2 dir entries present, present p = true)) := by
  constructor
  · intro gl
    refine ⟨rfl, List.sorted_insertionSort _ _,
      fun hn => (List.perm_insertionSort _ _).symm.nodup hn, ?_⟩
    intro present hp p hmem
    exact hp p ((List.perm_insertionSort _ _).subset hmem)
  · intro dir entries present
    refine ⟨List.filter_sublist _, ?_⟩
    intro p hp
    exact (List.mem_filter.mp hp).2

/-- Closed instance of `locator_amended`. -/
theorem locator_amended_witness :
    v1Files [strL "b", strL "a"] = List.insertionSort (· ≤ ·) [strL "b", strL "a"]
    ∧ (v1Files [strL "b", strL "a"]).Sorted (· ≤ ·)
    ∧ (v1Files [strL "b", strL "a"]).Nodup
    ∧ (∀ p ∈ v1Files [strL "b", strL "a"], (fun (_ : List Char) => true) p = true)
    ∧ (locateFilesV2 (strL "/d") [strL "a"] (fun _ => true)).Sublist
        ([strL "a"].map (resolvePath (strL "/d")))
    ∧ ∀ p ∈ locateFilesV2 (strL "/d") [strL "a"] (fun _ => true),
        (fun (_ : List Char) => true) p = true := by
  obtain ⟨h1, h2⟩ := locator_amended
  obtain ⟨ha, hb, hc, hd⟩ := h1 [strL "b", strL "a"]
  obtain ⟨he, hf⟩ := h2 (strL "/d") [strL "a"] (fun _ => true)
  exact ⟨ha, hb, hc (by decide), hd _ (fun p _ => rfl), he, hf⟩

theorem mem_v1AddWarning (x w : Warn) (ws : List Warn) (hx : x ∈ ws) :
    x ∈ v1AddWarning w ws := by
  unfold v1AddWarning
  split
  · exact hx
  · exact List.mem_append_left _ hx

theorem self_mem_v1AddWarning (w : Warn) (ws : List Warn) : w ∈ v1AddWarning w ws := by
  unfold v1AddWarning
  split
  · assumption
  · simp

/-- Membership in the warning accumulator survives any fold whose step only
extends the list. -/
theorem foldl_warn_mono {δ : Type} (g : List Warn → δ → List Warn)
    (hg : ∀ ws a x, x ∈ ws → x ∈ g ws a) :
    ∀ (l : List δ) (ws : List Warn) (x : Warn), x ∈ ws → x ∈ l.foldl g ws
  | [], _, _, hx => hx
  | a :: t, ws, x, hx => foldl_warn_mono g hg t (g ws a) x (hg ws a x hx)

theorem scenStep_mono (d : V1Data) (p k : List Char) :
    ∀ (ws : List Warn) (sc : ℕ) (x : Warn), x ∈ ws →
      x ∈ (if (lookup3 d p sc k).isNone then v1AddWarning (p, sc, k) ws else ws) := by
  intro ws sc x hx
  split
  · exact mem_v1AddWarning _ _ _ hx
  · exact hx

theorem warn_mem_scen (d : V1Data) (p k : List Char) (S : List ℕ) (s : ℕ)
    (hs : s ∈ S) (hnone : lookup3 d p s k = none) : ∀ ws : List Warn,
    (p, s, k) ∈ S.foldl
      (fun ws sc => if (lookup3 d p sc k).isNone then v1AddWarning (p, sc, k) ws else ws)
      ws := by
  induction S with
  | nil => cases hs
  | cons a t ih =>
    intro ws
    rw [List.foldl_cons]
    rcases List.mem_cons.mp hs with heq | hmem
    · subst heq
      refine foldl_warn_mono _ (scenStep_mono d p k) t _ _ ?_
      rw [if_pos (by simp [hnone])]
      exact self_mem_v1AddWarning _ _
    · exact ih hmem _

theorem metricStep_mono (d : V1Data) (p : List Char) (S : List ℕ) :
    ∀ (ws : List Warn) (k : List Char) (x : Warn), x ∈ ws →
      x ∈ S.foldl
        (fun ws sc => if (lookup3 d p sc k).isNone then v1AddWarning (p, sc, k) ws else ws)
        ws :=
  fun ws k x hx => foldl_warn_mono _ (scenStep_mono d p k) S ws x hx

theorem warn_mem_metric (d : V1Data) (p : List Char) (K : List (List Char)) (S : List ℕ)
    (k : List Char) (s : ℕ) (hk : k ∈ K) (hs : s ∈ S)
    (hnone : lookup3 d p s k = none) : ∀ ws : List Warn,
    (p, s, k) ∈ K.foldl
      (fun ws k' => S.foldl
        (fun ws sc => if (lookup3 d p sc k').isNone then v1AddWarning (p, sc, k') ws else ws)
        ws)
      ws := by
  induction K with
  | nil => cases hk
  | cons a t ih =>
    intro ws
    rw [List.foldl_cons]
    rcases List.mem_cons.mp hk with heq | hmem
    · subst heq
      exact foldl_warn_mono _ (fun ws k' x hx => metricStep_mono d p S ws k' x hx) t _ _
        (warn_mem_scen d p k S s hs hnone ws)
    · exact ih hmem _

theorem warn_mem_proto (d : V1Data) (S : List ℕ) (p k : List Char) (s : ℕ)
    (hk : k ∈ metricsToPlot) (hs : s ∈ S) (hnone : lookup3 d p s k = none) :
    ∀ (P : List (List Char)), p ∈ P → ∀ ws : List Warn,
    (p, s, k) ∈ P.foldl
      (fun ws p' => metricsToPlot.foldl
        (fun ws k' => S.foldl
          (fun ws sc =>
            if (lookup3 d p' sc k').isNone then v1AddWarning (p', sc, k') ws else ws)
          ws)
        ws)
      ws := by
  have hmono : ∀ (ws : List Warn) (p' : List Char) (x : Warn), x ∈ ws →
      x ∈ metricsToPlot.foldl
        (fun ws k' => S.foldl
          (fun ws sc =>
            if (lookup3 d p' sc k').isNone then v1AddWarning (p', sc, k') ws else ws)
          ws)
        ws :=
    fun ws p' x hx =>
      foldl_warn_mono _ (fun ws2 k' y hy => metricStep_mono d p' S ws2 k' y hy)
        metricsToPlot ws x hx
  intro P
  induction P with
  | nil => intro hp; cases hp
  | cons a t ih =>
    intro hp ws
    rw [List.foldl_cons]
    rcases List.mem_cons.mp hp with heq | hmem
    · subst heq
      exact foldl_warn_mono _ (fun ws2 a2 x hx => hmono ws2 a2 x hx) t _ _
        (warn_mem_metric d p metricsToPlot S k s hk hs hnone _)
    · exact ih hmem _

theorem warn_mem (d : V1Data) (P : List (List Char)) (S : List ℕ)
    (p k : List Char) (s : ℕ) (hp : p ∈ P) (hk : k ∈ metricsToPlot) (hs : s ∈ S)
    (hnone : lookup3 d p s k = none) : (p, s, k) ∈ v1Warnings d P S :=
  warn_mem_proto d S p k s hk hs hnone P hp []

/-- C9: in the glob script the scenario axis of every plotted series is taken
exclusively from the alphabetically first protocol: a successful run's
scenario list carries exactly the first protocol's scenario keys, a scenario
known only to a later protocol is silently absent from every plot, every
series is the lookup image over this shared axis (so a scenario the other
protocol lacks is filled with NaN), and each such missing combination is
reported in a collected warning. -/
theorem scenarios_from_first_protocol (fs : List Char → Option (List (List Char)))
    (files : List (List Char)) (o : V1Output) (h : mainV1 fs files = .ok o) :
    ∃ p0 rest, o.protocols = p0 :: rest
    ∧ (∀ s, s ∈ o.scenarios ↔ s ∈ pyKeys ((pyGet p0 (v1Data fs files)).getD []))
    ∧ (∀ p s, p ∈ o.protocols →
        s ∈ pyKeys ((pyGet p (v1Data fs files)).getD []) →
        s ∉ pyKeys ((pyGet p0 (v1Data fs files)).getD []) → s ∉ o.scenarios)
    ∧ o.plotData = v1PlotData (v1Data fs files) o.protocols o.scenarios
    ∧ (∀ p k s, p ∈ o.protocols → k ∈ metricsToPlot → s ∈ o.scenarios →
        lookup3 (v1Data fs files) p s k = none → (p, s, k) ∈ o.missingWarnings) := by
  rw [mainV1_eq] at h
  split at h
  · cases h
  split at h
  · cases h
  split at h
  · cases h
  next p0 rest heq =>
    split at h
    · cases h
    cases h
    refine ⟨p0, rest, heq, ?_, ?_, rfl, ?_⟩
    · intro s
      exact (List.perm_insertionSort _ _).mem_iff
    · intro p s _ _ habs hmem
      exact habs (((List.perm_insertionSort _ _).mem_iff).mp hmem)
    · intro p k s hp hk hs hnone
      exact warn_mem _ _ _ p k s hp hk hs hnone

/-- Closed instance of `scenarios_from_first_protocol` on `w9Fs`: the axis
equals `Prophet`'s scenario keys, scenario 2 (present only for
`Prophet Random`) is omitted, and `Prophet Random`'s missing scenario-1
value is warned about. -/
theorem scenarios_from_first_protocol_witness :
    (∀ s, s ∈ w9Out.scenarios
      ↔ s ∈ pyKeys ((pyGet (strL "Prophet") (v1Data w9Fs w9Files)).getD []))
    ∧ (2 : ℕ) ∉ w9Out.scenarios
    ∧ (strL "Prophet Random", 1, strL "delivery_prob") ∈ w9Out.missingWarnings := by
  obtain ⟨p0, rest, hps, hiff, homit, hplot, hwarn⟩ :=
    scenarios_from_first_protocol w9Fs w9Files w9Out (by decide)
  have hp0 : p0 = strL "Prophet" := by
    have : w9Out.protocols = strL "Prophet" :: [strL "Prophet Random"] := by decide
    rw [this] at hps
    exact (List.cons.injEq _ _ _ _ ▸ hps).1.symm
  subst hp0
  refine ⟨hiff, ?_, ?_⟩
  · exact homit (strL "Prophet Random") 2 (by decide) (by decide) (by decide)
  · exact hwarn (strL "Prophet Random") (strL "delivery_prob") 1
      (by decide) (by decide) (by decide) (by decide)

end TheOne
